import Mathlib

set_option maxHeartbeats 1000000
set_option linter.unusedVariables false

namespace Todo

/-!  Shallow embedding of `src/main.py`, a daily TODO roll-forward tool.

A journal file is modelled as the list of its line contents without the
trailing newline character: Python's iteration over a file yields lines that
end in `"\n"`, so the blank-line test `line == "\n"` of the source becomes
`line == ""` here.  `datetime.datetime.now()` is modelled by passing `today`
explicitly, console input by a list of pending response strings consumed in
order, the global `TODOS` dictionary by the ordered association list handed
to the writer, and a raised exception by `Except.error` / `Option.none`. -/

/-- The characters removed by Python's `str.strip()` with no argument. -/
def isPyWs (c : Char) : Bool :=
  c == ' ' || c == '\t' || c == '\n' || c == '\r' || c == '\x0b' || c == '\x0c'

/-- Embeds Python `s.strip()`: remove leading and trailing whitespace. -/
def pyStrip (s : String) : String :=
  String.mk ((s.data.dropWhile isPyWs).rdropWhile isPyWs)

/-- Embeds Python `s.lstrip(chars)`: remove leading characters drawn from the
character set `chars`. -/
def pyLstrip (s : String) (chars : String) : String :=
  String.mk (s.data.dropWhile (fun c => chars.data.contains c))

/-- Embeds Python `s.startswith(p)`. -/
def pyStartswith (s p : String) : Bool :=
  p.data.isPrefixOf s.data

/-- The `COMPLETED_MARKERS` list of the source. -/
def COMPLETED_MARKERS : List String := ["[x]", "[X]"]

/-- The `UNCOMPLETED_MARKERS` list of the source. -/
def UNCOMPLETED_MARKERS : List String := ["-", "*", "[]", "[ ]", "->"]

/-- The character set `"".join(COMPLETED_MARKERS + UNCOMPLETED_MARKERS)` that
`create_file` passes to `str.lstrip`. -/
def markerChars : String :=
  String.join (COMPLETED_MARKERS ++ UNCOMPLETED_MARKERS)

/-- The `State` enum of the source, in declaration order. -/
inductive State where
  | TODAY
  | ANYTIME
  | THIS_WEEK
  | THIS_MONTH
  | THIS_QUARTER
  | THIS_YEAR
  | COMPLETED
  | DROPPED
deriving DecidableEq, Fintype, Repr

/-- The string value of each `State` enum member. -/
def State.value : State → String
  | .TODAY => "TODAY"
  | .ANYTIME => "ANYTIME"
  | .THIS_WEEK => "THIS WEEK"
  | .THIS_MONTH => "THIS MONTH"
  | .THIS_QUARTER => "THIS QUARTER"
  | .THIS_YEAR => "THIS YEAR"
  | .COMPLETED => "COMPLETED"
  | .DROPPED => "DROPPED"

/-- Declaration order of the `State` enum, which is also the key insertion
order of the global dictionary `TODOS = {state.value: [] for state in State}`. -/
def stateOrder : List State :=
  [.TODAY, .ANYTIME, .THIS_WEEK, .THIS_MONTH, .THIS_QUARTER, .THIS_YEAR,
   .COMPLETED, .DROPPED]

/-- A calendar date, standing in for `datetime.datetime` (only the date
fields are ever used by the source). -/
structure Date where
  year : Nat
  month : Nat
  day : Nat
deriving DecidableEq, Repr

/-- Gregorian leap-year rule, as in CPython's `datetime`. -/
def isLeap (y : Nat) : Bool :=
  (y % 4 == 0 && y % 100 != 0) || y % 400 == 0

/-- Number of days of month `m` in year `y`. -/
def daysInMonth (y m : Nat) : Nat :=
  if m = 2 then (if isLeap y then 29 else 28)
  else if m = 4 ∨ m = 6 ∨ m = 9 ∨ m = 11 then 30
  else 31

/-- Days in year `y` strictly before month `m`. -/
def daysBeforeMonth (y m : Nat) : Nat :=
  ((List.range (m - 1)).map (fun i => daysInMonth y (i + 1))).sum

/-- Days strictly before year `y` in the proleptic Gregorian calendar. -/
def daysBeforeYear (y : Nat) : Nat :=
  365 * (y - 1) + (y - 1) / 4 + (y - 1) / 400 - (y - 1) / 100

/-- Proleptic Gregorian ordinal of a date, with 0001-01-01 ↦ 1; this is the
value CPython's `date.toordinal()` returns, used by `isocalendar`. -/
def toOrdinal (d : Date) : Int :=
  ((daysBeforeYear d.year + daysBeforeMonth d.year d.month + d.day : Nat) : Int)

/-- CPython's `_isoweek1monday`: ordinal of the Monday starting ISO week 1
of `year`. -/
def isoweek1monday (year : Nat) : Int :=
  let firstday := toOrdinal ⟨year, 1, 1⟩
  let firstweekday := (firstday + 6).emod 7
  let week1monday := firstday - firstweekday
  if firstweekday > 3 then week1monday + 7 else week1monday

/-- CPython's `date.isocalendar()`: the (ISO year, ISO week, ISO weekday)
triple.  Python's `divmod` on ints is floor division, which for the positive
divisor 7 agrees with `Int.ediv` / `Int.emod`. -/
def isocalendar (d : Date) : Int × Int × Int :=
  let today := toOrdinal d
  let week1monday := isoweek1monday d.year
  let week := (today - week1monday).ediv 7
  let day := (today - week1monday).emod 7
  if week < 0 then
    let week1monday1 := isoweek1monday (d.year - 1)
    let week1 := (today - week1monday1).ediv 7
    let day1 := (today - week1monday1).emod 7
    ((d.year : Int) - 1, week1 + 1, day1 + 1)
  else if week ≥ 52 && today ≥ isoweek1monday (d.year + 1) then
    ((d.year : Int) + 1, 1, day + 1)
  else ((d.year : Int), week + 1, day + 1)

/-- Embeds `dt.isocalendar()[1]`, the ISO week number. -/
def isoWeekNumber (d : Date) : Int :=
  (isocalendar d).2.1

/-- The `Section` base class: a heading state plus the phrase used when
referring to the previous period.  The per-subclass `matches` predicates are
embedded as standalone functions below, with `today` passed explicitly in
place of `datetime.datetime.now()`. -/
structure Section where
  heading : State
  last : String

/-- The `Day` section. -/
def Day : Section := ⟨State.TODAY, "yesterday"⟩

/-- Embeds `Day.matches`: same calendar day, month and year. -/
def Day.matches (dt today : Date) : Bool :=
  dt.day == today.day && dt.month == today.month && dt.year == today.year

/-- The `Anytime` section. -/
def Anytime : Section := ⟨State.ANYTIME, "yet"⟩

/-- Embeds `Anytime.matches`: never matches. -/
def Anytime.matches (_dt _today : Date) : Bool :=
  false

/-- The `Week` section. -/
def Week : Section := ⟨State.THIS_WEEK, "last week"⟩

/-- Embeds `Week.matches`: same ISO week number and same calendar year. -/
def Week.matches (dt today : Date) : Bool :=
  isoWeekNumber dt == isoWeekNumber today && dt.year == today.year

/-- The `Month` section. -/
def Month : Section := ⟨State.THIS_MONTH, "last month"⟩

/-- Embeds `Month.matches`: same month and year. -/
def Month.matches (dt today : Date) : Bool :=
  dt.month == today.month && dt.year == today.year

/-- The `Quarter` section. -/
def Quarter : Section := ⟨State.THIS_QUARTER, "last quarter"⟩

/-- Embeds `Quarter.matches`: the two months fall in the same triple of
`[[1,2,3],[4,5,6],[7,8,9],[10,11,12]]` and the years agree.  `none` models
the `StopIteration` / `ValueError` a month outside 1..12 would raise. -/
def Quarter.matches (dt today : Date) : Option Bool :=
  let groups : List (List Nat) := [[1,2,3],[4,5,6],[7,8,9],[10,11,12]]
  match groups.find? (fun g => g.contains dt.month),
        groups.find? (fun g => g.contains today.month) with
  | some g1, some g2 =>
    match groups.findIdx? (fun g => g == g1), groups.findIdx? (fun g => g == g2) with
    | some i1, some i2 => some (i1 == i2 && dt.year == today.year)
    | _, _ => none
  | _, _ => none

/-- The `Year` section. -/
def Year : Section := ⟨State.THIS_YEAR, "last year"⟩

/-- Embeds `Year.matches`: same year. -/
def Year.matches (dt today : Date) : Bool :=
  dt.year == today.year

/-- The `Action` named tuple. -/
structure Action where
  command : String
  label : String
  state : State
deriving DecidableEq, Repr

/-- The static `ACTIONS` vocabulary list of the source. -/
def ACTIONS : List Action :=
  [⟨"", "<enter> = completed", State.COMPLETED⟩,
   ⟨"t", "t = defer to today", State.TODAY⟩,
   ⟨"a", "a = defer to anytime", State.ANYTIME⟩,
   ⟨"w", "w = defer to this week", State.THIS_WEEK⟩,
   ⟨"m", "m = defer to this month", State.THIS_MONTH⟩,
   ⟨"q", "q = defer to this quarter", State.THIS_QUARTER⟩,
   ⟨"y", "y = defer to this year", State.THIS_YEAR⟩,
   ⟨"d", "d = dropped / abandoned / delegated", State.DROPPED⟩]

/-- Embeds `get_action`.  The vocabulary is passed explicitly (the source
reads the global `ACTIONS`); `Except.error` models the raised
`Exception("Multiple actions with the same command.")`. -/
def get_action (actions : List Action) (command : String) :
    Except String (Option Action) :=
  match actions.filter (fun action => action.command == command) with
  | [] => Except.ok none
  | [action] => Except.ok (some action)
  | _ => Except.error "Multiple actions with the same command."

/-- Embeds `get_available_commands`. -/
def get_available_commands (actions : List Action) : String :=
  "[" ++ String.intercalate ", " (actions.map (fun a => a.command)) ++ "]"

/-- Embeds `generate_instructions`. -/
def generate_instructions (actions : List Action) : String :=
  String.intercalate "\n" (actions.map (fun a => a.label))

/-- Embeds `is_task_completed`. -/
def is_task_completed (task : String) : Bool :=
  COMPLETED_MARKERS.any (fun marker => pyStartswith task marker)

/-- The reprompt loop inside `review_task`, consuming scripted console
inputs.  `none` models blocking forever once the script is exhausted (and
the exception `get_action` could raise).  A recognised command returns its
target state, the unconsumed inputs, and the number of prompts issued so
far; `"help"` and unrecognised input both print and reprompt. -/
def review_task_loop : List String → Nat → Option (State × List String × Nat)
  | [], _ => none
  | response :: rest, prompts =>
    match get_action ACTIONS response with
    | Except.error _ => none
    | Except.ok (some action) => some (action.state, rest, prompts)
    | Except.ok none => review_task_loop rest (prompts + 1)

/-- Embeds `review_task`: a task already bearing a completion marker is
returned as `COMPLETED` with no input consumed and zero prompts; otherwise
one prompt is issued and the loop runs on the scripted inputs. -/
def review_task (task : String) (sec : Section) (inputs : List String) :
    Option (State × List String × Nat) :=
  if is_task_completed task then some (State.COMPLETED, inputs, 0)
  else review_task_loop inputs 1

/-- The per-line state of the `read_section` loop.  The accumulated
`(state, task)` pairs record the `add_task(state, task)` calls in order;
the returned inputs are the unconsumed console responses and the `Nat`
counts prompts issued.  Note the source checks, in this order: break on a
blank line while reading, capture while reading, then compare the stripped
line against `# <heading>` to start reading. -/
def readSectionGo (sec : Section) (to_review : Bool) :
    List String → Bool → List String →
      Option (List (State × String) × List String × Nat)
  | [], _, inputs => some ([], inputs, 0)
  | line :: rest, reading, inputs =>
    if reading && line == "" then some ([], inputs, 0)
    else
      let afterHeading := reading || (pyStrip line == "# " ++ sec.heading.value)
      if reading then
        let task := pyStrip line
        let res :=
          if to_review then review_task task sec inputs
          else some (if is_task_completed task then State.COMPLETED
                     else sec.heading, inputs, 0)
        match res with
        | none => none
        | some (st, inputs1, n1) =>
          match readSectionGo sec to_review rest afterHeading inputs1 with
          | none => none
          | some (pairs, inputs2, n2) => some ((st, task) :: pairs, inputs2, n1 + n2)
      else
        readSectionGo sec to_review rest afterHeading inputs

/-- Embeds `read_section` on the lines of the given file. -/
def read_section (lines : List String) (sec : Section) (to_review : Bool)
    (inputs : List String) :
    Option (List (State × String) × List String × Nat) :=
  readSectionGo sec to_review lines false inputs

/-- The tasks `read_section` captures for a bucket when no review is needed
(the parser role of `read_section`): the second components of the
accumulated `(state, task)` pairs. -/
def readSectionTasks (lines : List String) (sec : Section) :
    Option (List String) :=
  (read_section lines sec false []).map (fun r => r.1.map Prod.snd)

/-- The line `create_file` writes for a task of the `COMPLETED` bucket:
`COMPLETED_MARKERS[0] + " " + task.lstrip("".join(COMPLETED_MARKERS + UNCOMPLETED_MARKERS))`. -/
def completedOutput (task : String) : String :=
  COMPLETED_MARKERS.headD "" ++ " " ++ pyLstrip task markerChars

/-- The line `create_file` writes for one task under the given heading:
the task itself, except under `COMPLETED` where the marker is normalised. -/
def renderLine (heading : String) (task : String) : String :=
  if heading == "COMPLETED" then completedOutput task else task

/-- Embeds `create_file`: the sequence of lines the writer emits, with the
`todos` dictionary as an ordered association list (Python dictionaries
iterate in key insertion order). -/
def create_file_lines (filename_stub : String)
    (todos : List (String × List String)) : List String :=
  ("# TODO FOR " ++ filename_stub) :: "" ::
    todos.flatMap (fun p =>
      ("# " ++ p.1) :: (p.2.map (renderLine p.1) ++ [""]))

/-- The `TODOS` dictionary as `create_file` receives it in `main`: one key
per `State` in enum declaration order, `f s` being the tasks accumulated
under `s` by `add_task` (which never adds keys beyond the initial eight). -/
def canonicalTodos (f : State → List String) : List (String × List String) :=
  stateOrder.map (fun s => (s.value, f s))

/-- The capture phase of the `read_section` loop once the heading has been
seen: strip and collect every line until the first blank line. -/
def sectionCapture : List String → List String
  | [] => []
  | line :: rest => if line == "" then [] else pyStrip line :: sectionCapture rest

/-- The scan phase of the `read_section` loop: skip lines until one strips
to the heading, then capture the section body. -/
def sectionScan (headingStr : String) : List String → List String
  | [] => []
  | line :: rest =>
    if pyStrip line == headingStr then sectionCapture rest
    else sectionScan headingStr rest

theorem readSectionGo_reading (sec : Section) :
    ∀ (lines inputs : List String),
      readSectionGo sec false lines true inputs =
        some ((sectionCapture lines).map
          (fun t => (if is_task_completed t then State.COMPLETED else sec.heading, t)),
          inputs, 0)
  | [], inputs => rfl
  | line :: rest, inputs => by
    by_cases h : line = ""
    · simp [readSectionGo, sectionCapture, h]
    · simp [readSectionGo, sectionCapture, h, readSectionGo_reading sec rest inputs]

theorem readSectionGo_scanning (sec : Section) :
    ∀ (lines inputs : List String),
      readSectionGo sec false lines false inputs =
        some ((sectionScan ("# " ++ sec.heading.value) lines).map
          (fun t => (if is_task_completed t then State.COMPLETED else sec.heading, t)),
          inputs, 0)
  | [], inputs => rfl
  | line :: rest, inputs => by
    by_cases h : pyStrip line = "# " ++ sec.heading.value
    · simp [readSectionGo, sectionScan, h, readSectionGo_reading sec rest inputs]
    · have hb : (pyStrip line == "# " ++ sec.heading.value) = false := by simp [h]
      simp [readSectionGo, sectionScan, h, hb, readSectionGo_scanning sec rest inputs]

theorem readSectionTasks_eq_sectionScan (lines : List String) (sec : Section) :
    readSectionTasks lines sec =
      some (sectionScan ("# " ++ sec.heading.value) lines) := by
  simp only [readSectionTasks, read_section, readSectionGo_scanning sec lines []]
  simp [List.map_map, Function.comp_def]

theorem sectionScan_eq_nil_of_no_match (h : String) :
    ∀ (lines : List String), (∀ l ∈ lines, pyStrip l ≠ h) →
      sectionScan h lines = []
  | [], _ => rfl
  | line :: rest, hno => by
    have h1 : pyStrip line ≠ h := hno line (List.mem_cons_self _ _)
    simp only [sectionScan, h1, if_neg, beq_iff_eq, if_false]
    exact sectionScan_eq_nil_of_no_match h rest
      (fun l hl => hno l (List.mem_cons_of_mem _ hl))

theorem sectionScan_append_of_no_match (h : String) :
    ∀ (xs ys : List String), (∀ l ∈ xs, pyStrip l ≠ h) →
      sectionScan h (xs ++ ys) = sectionScan h ys
  | [], ys, _ => rfl
  | x :: xs, ys, hno => by
    have h1 : pyStrip x ≠ h := hno x (List.mem_cons_self _ _)
    simp only [List.cons_append, sectionScan, h1, beq_iff_eq, if_false]
    exact sectionScan_append_of_no_match h xs ys
      (fun l hl => hno l (List.mem_cons_of_mem _ hl))

theorem sectionCapture_eq_takeWhile :
    ∀ (lines : List String),
      sectionCapture lines = (lines.takeWhile (fun l => l != "")).map pyStrip
  | [] => rfl
  | line :: rest => by
    by_cases h : line = ""
    · simp [sectionCapture, List.takeWhile_cons, h]
    · simp [sectionCapture, List.takeWhile_cons, h,
        sectionCapture_eq_takeWhile rest]

theorem sectionCapture_append_blank :
    ∀ (xs ys : List String), (∀ x ∈ xs, x ≠ "") →
      sectionCapture (xs ++ "" :: ys) = xs.map pyStrip
  | [], ys, _ => rfl
  | x :: xs, ys, hne => by
    have h1 : x ≠ "" := hne x (List.mem_cons_self _ _)
    have hb : (x == "") = false := by simp [h1]
    simp only [List.cons_append, sectionCapture, hb, Bool.false_eq_true, if_false,
      List.map_cons]
    exact congrArg _ (sectionCapture_append_blank xs ys
      (fun l hl => hne l (List.mem_cons_of_mem _ hl)))

/-- C1 (amended): when `to_review` is false, `read_section` consumes no
console input and issues no prompt; each captured task is filed under the
section's own bucket unless it already bears a completion marker, in which
case it is filed under `COMPLETED`. -/
theorem read_section_no_review_auto (lines : List String) (sec : Section)
    (inputs : List String) :
    read_section lines sec false inputs =
      some ((sectionScan ("# " ++ sec.heading.value) lines).map
        (fun t => (if is_task_completed t then State.COMPLETED else sec.heading, t)),
        inputs, 0) :=
  readSectionGo_scanning sec lines inputs

/-- C1 counterexample: a task line already complete-marked in an unexpired
`THIS WEEK` bucket is filed under `COMPLETED`, not carried into
`THIS WEEK` as the claim states. -/
theorem completed_task_leaves_week_bucket :
    read_section ["# THIS WEEK", "[x] foo"] Week false [] =
        some ([(State.COMPLETED, "[x] foo")], [], 0) ∧
      State.COMPLETED ≠ State.THIS_WEEK := by
  exact ⟨by decide, by decide⟩

/-- C3: a task already bearing a completion marker resolves to `COMPLETED`
immediately: no prompt is issued and no console input is read, whatever the
originating bucket. -/
theorem review_task_completed_no_prompt (task : String) (sec : Section)
    (inputs : List String) (h : is_task_completed task = true) :
    review_task task sec inputs = some (State.COMPLETED, inputs, 0) := by
  simp [review_task, h]

theorem review_task_completed_no_prompt_witness :
    is_task_completed "[x] done" = true ∧
      review_task "[x] done" Week ["w", "d"] =
        some (State.COMPLETED, ["w", "d"], 0) :=
  ⟨by decide, review_task_completed_no_prompt "[x] done" Week ["w", "d"] (by decide)⟩

/-- C4: `read_section` captures, in order, the trimmed lines that follow the
first line stripping to the bucket's canonical heading, up to the first
blank line; a file with no heading line yields the empty list, not an
error. -/
theorem read_section_parses_heading_block (lines : List String) (sec : Section) :
    ((∀ l ∈ lines, pyStrip l ≠ "# " ++ sec.heading.value) →
        readSectionTasks lines sec = some []) ∧
      (∀ pre hline post,
        lines = pre ++ hline :: post →
        pyStrip hline = "# " ++ sec.heading.value →
        (∀ l ∈ pre, pyStrip l ≠ "# " ++ sec.heading.value) →
        readSectionTasks lines sec =
          some ((post.takeWhile (fun l => l != "")).map pyStrip)) := by
  constructor
  · intro hno
    rw [readSectionTasks_eq_sectionScan, sectionScan_eq_nil_of_no_match _ _ hno]
  · intro pre hline post hsplit hhead hno
    rw [readSectionTasks_eq_sectionScan, hsplit,
      sectionScan_append_of_no_match _ _ _ hno]
    simp only [sectionScan, hhead, beq_self_eq_true, if_true]
    rw [sectionCapture_eq_takeWhile]

theorem read_section_parses_heading_block_witness :
    readSectionTasks ["intro", "# TODAY", "buy milk", " spaced ", "", "later"] Day =
      some ["buy milk", "spaced"] := by
  have h := (read_section_parses_heading_block
      ["intro", "# TODAY", "buy milk", " spaced ", "", "later"] Day).2
      ["intro"] "# TODAY" ["buy milk", " spaced ", "", "later"]
      rfl (by decide) (by decide)
  rw [h]
  decide

/-- C10: `is_task_completed` holds exactly when the task starts with the
literal prefix `[x]` or `[X]`: no following space is required, the marker
must sit at the very start, and no other spelling is recognised. -/
theorem is_task_completed_spec :
    (∀ t : String, is_task_completed t =
        (pyStartswith t "[x]" || pyStartswith t "[X]")) ∧
      is_task_completed "[x]buy milk" = true ∧
      is_task_completed "[X] a" = true ∧
      is_task_completed "[ x] a" = false ∧
      is_task_completed "x done" = false ∧
      is_task_completed " [x] a" = false := by
  refine ⟨fun t => ?_, by decide, by decide, by decide, by decide, by decide⟩
  simp [is_task_completed, COMPLETED_MARKERS]

/-- C6: `Week.matches` holds exactly when the two dates share the ISO week
number and the calendar year; dates in different calendar years never
match, and dates of one year match exactly when their ISO week numbers
agree. -/
theorem week_matches_iff (D T : Date) :
    (Week.matches D T = true ↔
        isoWeekNumber D = isoWeekNumber T ∧ D.year = T.year) ∧
      (D.year ≠ T.year → Week.matches D T = false) ∧
      (D.year = T.year →
        (Week.matches D T = true ↔ isoWeekNumber D = isoWeekNumber T)) := by
  have base : Week.matches D T = true ↔
      isoWeekNumber D = isoWeekNumber T ∧ D.year = T.year := by
    simp [Week.matches]
  refine ⟨base, fun hne => ?_, fun hy => ?_⟩
  · cases hw : Week.matches D T
    · rfl
    · exact absurd (base.mp hw).2 hne
  · rw [base]
    simp [hy]

theorem week_matches_iff_witness :
    (Date.mk 2024 12 31).year ≠ (Date.mk 2025 1 1).year ∧
      Week.matches ⟨2024, 12, 31⟩ ⟨2025, 1, 1⟩ = false :=
  ⟨by decide, (week_matches_iff ⟨2024, 12, 31⟩ ⟨2025, 1, 1⟩).2.1 (by decide)⟩

/-- C9: every period bucket's `matches` is reflexive (`Quarter` needs a
month in 1..12, where the source would otherwise raise), except `Anytime`,
which never matches. -/
theorem matches_reflexive (d : Date) (h1 : 1 ≤ d.month) (h2 : d.month ≤ 12) :
    Day.matches d d = true ∧ (∀ e : Date, Anytime.matches d e = false) ∧
      Week.matches d d = true ∧ Month.matches d d = true ∧
      Quarter.matches d d = some true ∧ Year.matches d d = true := by
  refine ⟨by simp [Day.matches], fun e => rfl, by simp [Week.matches],
    by simp [Month.matches], ?_, by simp [Year.matches]⟩
  obtain ⟨y, m, dd⟩ := d
  simp only at h1 h2
  interval_cases m <;> simp [Quarter.matches]

theorem matches_reflexive_witness :
    (1 ≤ (Date.mk 2026 5 6).month ∧ (Date.mk 2026 5 6).month ≤ 12) ∧
      (Day.matches ⟨2026, 5, 6⟩ ⟨2026, 5, 6⟩ = true ∧
        Anytime.matches ⟨2026, 5, 6⟩ ⟨2000, 1, 1⟩ = false ∧
        Week.matches ⟨2026, 5, 6⟩ ⟨2026, 5, 6⟩ = true ∧
        Month.matches ⟨2026, 5, 6⟩ ⟨2026, 5, 6⟩ = true ∧
        Quarter.matches ⟨2026, 5, 6⟩ ⟨2026, 5, 6⟩ = some true ∧
        Year.matches ⟨2026, 5, 6⟩ ⟨2026, 5, 6⟩ = true) :=
  ⟨⟨by decide, by decide⟩,
    (fun h => ⟨h.1, h.2.1 ⟨2000, 1, 1⟩, h.2.2⟩)
      (matches_reflexive ⟨2026, 5, 6⟩ (by decide) (by decide))⟩

theorem filter_command_length_le (c : String) :
    ∀ (actions : List Action),
      actions.Pairwise (fun a b => a.command ≠ b.command) →
      (actions.filter (fun a => a.command == c)).length ≤ 1
  | [], _ => by simp
  | a :: rest, h => by
    rw [List.pairwise_cons] at h
    by_cases hc : a.command = c
    · have hrest : rest.filter (fun a => a.command == c) = [] := by
        rw [List.filter_eq_nil_iff]
        intro b hb
        simp only [beq_iff_eq]
        intro hbc
        exact h.1 b hb (hc.trans hbc.symm)
      simp [List.filter_cons, hc, hrest]
    · simp only [List.filter_cons, beq_iff_eq, hc, if_false]
      exact filter_command_length_le c rest h.2

/-- The `ACTIONS` list extended with a second entry for the token `t`. -/
def dupACTIONS : List Action :=
  ACTIONS ++ [⟨"t", "t = duplicate entry", State.TODAY⟩]

/-- C5 (amended): a duplicated command token is not rejected when the
vocabulary list is built; it is detected at prompt time, when `get_action`
dispatches that token and raises.  The shipped `ACTIONS` list has pairwise
distinct tokens, so dispatch on it never raises. -/
theorem duplicate_command_detected_at_dispatch :
    (∀ (actions : List Action) (c : String),
        2 ≤ (actions.filter (fun a => a.command == c)).length →
        get_action actions c =
          Except.error "Multiple actions with the same command.") ∧
      (∀ (c msg : String), get_action ACTIONS c ≠ Except.error msg) := by
  constructor
  · intro actions c h
    rcases hfl : actions.filter (fun a => a.command == c) with _ | ⟨a, _ | ⟨b, l⟩⟩
    · rw [hfl] at h
      simp at h
    · rw [hfl] at h
      simp at h
    · simp [get_action, hfl]
  · intro c msg
    have hp : ACTIONS.Pairwise (fun a b => a.command ≠ b.command) := by decide
    have hl := filter_command_length_le c ACTIONS hp
    rcases hfl : ACTIONS.filter (fun a => a.command == c) with _ | ⟨a, _ | ⟨b, l⟩⟩
    · simp [get_action, hfl]
    · simp [get_action, hfl]
    · rw [hfl] at hl
      simp at hl

theorem duplicate_command_detected_at_dispatch_witness :
    (2 ≤ (dupACTIONS.filter (fun a => a.command == "t")).length ∧
        get_action dupACTIONS "t" =
          Except.error "Multiple actions with the same command.") ∧
      get_action ACTIONS "t" ≠ Except.error "boom" :=
  ⟨⟨by decide, duplicate_command_detected_at_dispatch.1 dupACTIONS "t" (by decide)⟩,
    duplicate_command_detected_at_dispatch.2 "t" "boom"⟩

/-- C5 counterexample: the duplicated vocabulary is built without any
failure (it is an ordinary nine-entry list, and help text still renders
from it); the duplicate surfaces only when the duplicated token is
dispatched at prompt time. -/
theorem duplicate_command_not_detected_at_construction :
    dupACTIONS.length = 9 ∧
      get_available_commands dupACTIONS = "[, t, a, w, m, q, y, d, t]" ∧
      get_action dupACTIONS "w" =
        Except.ok (some ⟨"w", "w = defer to this week", State.THIS_WEEK⟩) ∧
      get_action dupACTIONS "t" =
        Except.error "Multiple actions with the same command." :=
  ⟨rfl, rfl, rfl, rfl⟩

theorem strip_list_eq_self_iff (p : Char → Bool) (l : List Char) :
    (l.dropWhile p).rdropWhile p = l ↔
      (∀ c ∈ l.head?, p c = false) ∧ (∀ c ∈ l.getLast?, p c = false) := by
  constructor
  · intro h
    have hsuf : l.dropWhile p <:+ l := List.dropWhile_suffix p
    have hpre : (l.dropWhile p).rdropWhile p <+: l.dropWhile p :=
      List.rdropWhile_prefix p _
    have hlen : (l.dropWhile p).length = l.length := by
      have h1 := hpre.length_le
      have h2 := hsuf.length_le
      rw [h] at h1
      omega
    have hdw : l.dropWhile p = l := hsuf.eq_of_length hlen
    rw [hdw] at h
    constructor
    · intro c hc
      cases l with
      | nil => simp at hc
      | cons a t =>
        have hc2 : c = a := by
          simp only [List.head?_cons, Option.mem_def, Option.some.injEq] at hc
          exact hc.symm
        rw [hc2]
        by_cases hp : p a
        · rw [List.dropWhile_cons_of_pos hp] at hdw
          have hle := (List.dropWhile_suffix (l := t) p).length_le
          rw [hdw] at hle
          simp at hle
        · simpa using hp
    · intro c hc
      have hne : l ≠ [] := by
        intro hnil
        subst hnil
        simp at hc
      have hlast := (List.rdropWhile_eq_self_iff.mp h) hne
      have hg : l.getLast? = some (l.getLast hne) := List.getLast?_eq_getLast l hne
      rw [hg] at hc
      simp only [Option.mem_def, Option.some.injEq] at hc
      subst hc
      simpa using hlast
  · rintro ⟨h1, h2⟩
    have hdw : l.dropWhile p = l := by
      cases l with
      | nil => rfl
      | cons a t =>
        have ha : p a = false := h1 a (by simp)
        simp [List.dropWhile_cons, ha]
    rw [hdw, List.rdropWhile_eq_self_iff]
    intro hne
    have hg : l.getLast? = some (l.getLast hne) := List.getLast?_eq_getLast l hne
    have := h2 (l.getLast hne) (by simp [hg])
    simp [this]

theorem pyStrip_eq_self_iff (s : String) :
    pyStrip s = s ↔
      (∀ c ∈ s.data.head?, isPyWs c = false) ∧
        (∀ c ∈ s.data.getLast?, isPyWs c = false) := by
  obtain ⟨l⟩ := s
  show String.mk ((l.dropWhile isPyWs).rdropWhile isPyWs) = String.mk l ↔ _
  rw [show (String.mk ((l.dropWhile isPyWs).rdropWhile isPyWs) = String.mk l) ↔
      (l.dropWhile isPyWs).rdropWhile isPyWs = l from
    ⟨fun h => by injection h, fun h => by rw [h]⟩]
  exact strip_list_eq_self_iff isPyWs l

theorem rdropWhile_append_left (p : Char → Bool) (l₁ l₂ : List Char)
    (h : ∀ c ∈ l₁.getLast?, p c = false) :
    (l₁ ++ l₂).rdropWhile p = l₁ ++ l₂.rdropWhile p := by
  unfold List.rdropWhile
  rw [List.reverse_append, List.dropWhile_append]
  have hrev : l₁.reverse.dropWhile p = l₁.reverse := by
    cases hr : l₁.reverse with
    | nil => rfl
    | cons a t =>
      have ha : l₁.getLast? = some a := by
        rw [← List.head?_reverse, hr]
        rfl
      have hpa : p a = false := h a (by simp [ha])
      rw [List.dropWhile_cons_of_neg (by simp [hpa])]
  by_cases he : (l₂.reverse.dropWhile p).isEmpty
  · rw [if_pos he, hrev, List.reverse_reverse]
    have hnil : l₂.reverse.dropWhile p = [] := List.isEmpty_iff.mp he
    rw [hnil]
    simp
  · rw [if_neg he, List.reverse_append, List.reverse_reverse]

theorem pyStrip_head? (s : String) (c : Char) (hc : s.data.head? = some c)
    (hw : isPyWs c = false) : (pyStrip s).data.head? = some c := by
  obtain ⟨l⟩ := s
  cases l with
  | nil => simp at hc
  | cons a t =>
    simp only [List.head?_cons, Option.some.injEq] at hc
    subst hc
    show (((a :: t).dropWhile isPyWs).rdropWhile isPyWs).head? = some a
    rw [List.dropWhile_cons_of_neg (by simp [hw])]
    rw [show a :: t = [a] ++ t from rfl,
      rdropWhile_append_left isPyWs [a] t (by
        intro x hx
        simp only [List.getLast?_singleton, Option.mem_def, Option.some.injEq] at hx
        subst hx
        exact hw)]
    rfl

theorem heading_pyStrip (s : State) : pyStrip ("# " ++ s.value) = "# " ++ s.value := by
  cases s <;> decide

theorem heading_ne (s t : State) (h : s ≠ t) :
    ("# " ++ s.value) ≠ ("# " ++ t.value) := by
  cases s <;> cases t <;> first | exact absurd rfl h | decide

theorem heading_ne_empty (s : State) : ("" : String) ≠ "# " ++ s.value := by
  cases s <;> decide

theorem heading_head? (s : State) : ("# " ++ s.value).data.head? = some '#' := rfl

theorem completedOutput_data (t : String) :
    (completedOutput t).data =
      '[' :: 'x' :: ']' :: ' ' :: (pyLstrip t markerChars).data := rfl

theorem completedOutput_ne_empty (t : String) : completedOutput t ≠ "" := by
  intro h
  have h2 := congrArg String.data h
  rw [completedOutput_data] at h2
  simp at h2

theorem completedOutput_head? (t : String) :
    (completedOutput t).data.head? = some '[' := by
  rw [completedOutput_data]
  rfl

theorem completedOutput_ne_heading (t : String) (s : State) :
    completedOutput t ≠ "# " ++ s.value := by
  intro h
  have h2 : (completedOutput t).data.head? = ("# " ++ s.value).data.head? := by rw [h]
  rw [completedOutput_head? t, heading_head? s] at h2
  simp at h2

theorem pyStrip_completedOutput (t : String) (ht : pyStrip t = t)
    (hne : (pyLstrip t markerChars).data ≠ []) :
    pyStrip (completedOutput t) = completedOutput t := by
  rw [pyStrip_eq_self_iff]
  constructor
  · intro c hc
    rw [completedOutput_head? t] at hc
    simp only [Option.mem_def, Option.some.injEq] at hc
    subst hc
    decide
  · intro c hc
    have hlast : (completedOutput t).data.getLast? =
        (pyLstrip t markerChars).data.getLast? := by
      rw [completedOutput_data]
      rw [show '[' :: 'x' :: ']' :: ' ' :: (pyLstrip t markerChars).data =
        ['[', 'x', ']', ' '] ++ (pyLstrip t markerChars).data from rfl]
      exact List.getLast?_append_of_ne_nil _ hne
    have hsuf : (pyLstrip t markerChars).data <:+ t.data :=
      List.dropWhile_suffix _
    obtain ⟨pre, hpre⟩ := hsuf
    have hlast2 : (pyLstrip t markerChars).data.getLast? = t.data.getLast? := by
      rw [← hpre]
      exact (List.getLast?_append_of_ne_nil _ hne).symm
    have hts := (pyStrip_eq_self_iff t).mp ht
    apply hts.2
    rw [← hlast2, ← hlast]
    exact hc

theorem title_take6 (stub : String) :
    (pyStrip ("# TODO FOR " ++ stub)).data.take 6 = ['#', ' ', 'T', 'O', 'D', 'O'] := by
  show ((("# TODO FOR " ++ stub).data.dropWhile isPyWs).rdropWhile isPyWs).take 6 = _
  have hd : ("# TODO FOR " ++ stub).data =
      '#' :: ([' ', 'T', 'O', 'D', 'O', ' ', 'F', 'O', 'R'] ++ (' ' :: stub.data)) := rfl
  rw [hd, List.dropWhile_cons_of_neg (by decide), ← hd]
  have hd2 : ("# TODO FOR " ++ stub).data =
      ['#', ' ', 'T', 'O', 'D', 'O', ' ', 'F', 'O', 'R'] ++ (' ' :: stub.data) := rfl
  rw [hd2, rdropWhile_append_left isPyWs _ _ (by
    intro c hc
    simp only [show (['#', ' ', 'T', 'O', 'D', 'O', ' ', 'F', 'O', 'R'] :
      List Char).getLast? = some 'R' from rfl, Option.mem_def, Option.some.injEq] at hc
    subst hc
    decide)]
  rw [List.take_append_of_le_length (by norm_num)]
  decide

theorem title_ne_heading (stub : String) (s : State) :
    pyStrip ("# TODO FOR " ++ stub) ≠ "# " ++ s.value := by
  intro h
  have h2 : (pyStrip ("# TODO FOR " ++ stub)).data.take 6 =
      ("# " ++ s.value).data.take 6 := by rw [h]
  rw [title_take6] at h2
  cases s <;> exact absurd h2 (by decide)

/-- Side conditions under which a task line survives the write/parse
round-trip untouched: a nonempty line that is already stripped and is not
itself one of the eight section headings. -/
def goodTask (t : String) : Prop :=
  t ≠ "" ∧ pyStrip t = t ∧ ∀ s : State, t ≠ "# " ++ s.value

instance (t : String) : Decidable (goodTask t) := by
  unfold goodTask
  infer_instance

/-- The block of lines `create_file` writes for one bucket. -/
def blockOf (f : State → List String) (s : State) : List String :=
  ("# " ++ s.value) :: ((f s).map (renderLine s.value) ++ [""])

theorem create_file_eq_blocks (stub : String) (f : State → List String) :
    create_file_lines stub (canonicalTodos f) =
      ("# TODO FOR " ++ stub) :: "" :: stateOrder.flatMap (blockOf f) := rfl

theorem renderLine_of_completed (t : String) :
    renderLine State.COMPLETED.value t = completedOutput t := rfl

theorem renderLine_of_ne (s : State) (h : s ≠ State.COMPLETED) (t : String) :
    renderLine s.value t = t := by
  cases s <;> first | exact absurd rfl h | rfl

theorem blockOf_no_match (f : State → List String) (target s : State)
    (hne : s ≠ target) (hgood : ∀ t ∈ f s, goodTask t) :
    ∀ l ∈ blockOf f s, pyStrip l ≠ "# " ++ target.value := by
  intro l hl
  simp only [blockOf, List.mem_cons, List.mem_append, List.mem_map,
    List.mem_singleton, List.not_mem_nil, or_false] at hl
  rcases hl with rfl | ⟨t, ht, rfl⟩ | rfl
  · rw [heading_pyStrip s]
    exact heading_ne s target hne
  · by_cases hs : s = State.COMPLETED
    · subst hs
      rw [renderLine_of_completed]
      intro hcontra
      have h2 : (pyStrip (completedOutput t)).data.head? =
          ("# " ++ target.value).data.head? := by rw [hcontra]
      rw [pyStrip_head? (completedOutput t) '[' (completedOutput_head? t) (by decide),
        heading_head?] at h2
      simp at h2
    · rw [renderLine_of_ne s hs]
      have hg := hgood t ht
      rw [hg.2.1]
      exact hg.2.2 target
  · rw [show pyStrip "" = "" from rfl]
    exact heading_ne_empty target

theorem blockOf_body_ne_empty (f : State → List String) (s : State)
    (hgood : ∀ t ∈ f s, goodTask t) :
    ∀ x ∈ (f s).map (renderLine s.value), x ≠ "" := by
  intro x hx
  simp only [List.mem_map] at hx
  obtain ⟨t, ht, rfl⟩ := hx
  by_cases hs : s = State.COMPLETED
  · subst hs
    rw [renderLine_of_completed]
    exact completedOutput_ne_empty t
  · rw [renderLine_of_ne s hs]
    exact (hgood t ht).1

theorem sectionScan_blocks (f : State → List String) (target : State)
    (hgood : ∀ s : State, ∀ t ∈ f s, goodTask t) :
    ∀ (order : List State), target ∈ order →
      sectionScan ("# " ++ target.value) (order.flatMap (blockOf f)) =
        ((f target).map (renderLine target.value)).map pyStrip
  | [], hmem => absurd hmem (List.not_mem_nil _)
  | s :: rest, hmem => by
    rw [List.flatMap_cons]
    by_cases hs : s = target
    · subst hs
      rw [blockOf, List.cons_append]
      have hmatch : (pyStrip ("# " ++ s.value) == "# " ++ s.value) = true := by
        rw [heading_pyStrip s]
        simp
      simp only [sectionScan, hmatch, if_true]
      rw [List.append_assoc]
      exact sectionCapture_append_blank _ _ (blockOf_body_ne_empty f s (hgood s))
    · rw [sectionScan_append_of_no_match _ _ _ (blockOf_no_match f target s hs (hgood s))]
      have hmem2 : target ∈ rest := by
        rcases List.mem_cons.mp hmem with h | h
        · exact absurd h.symm hs
        · exact h
      exact sectionScan_blocks f target hgood rest hmem2

theorem renderLine_map (s : State) (ts : List String) :
    ts.map (renderLine s.value) =
      if s = State.COMPLETED then ts.map completedOutput else ts := by
  by_cases hs : s = State.COMPLETED
  · subst hs
    rw [if_pos rfl]
    exact List.map_congr_left (fun t _ => renderLine_of_completed t)
  · rw [if_neg hs]
    have h : ∀ t ∈ ts, renderLine s.value t = t := fun t _ => renderLine_of_ne s hs t
    rw [List.map_congr_left h]
    simp

theorem blockOf_eq (f : State → List String) (s : State) :
    blockOf f s =
      ("# " ++ s.value) ::
        ((if s = State.COMPLETED then (f s).map completedOutput else f s) ++ [""]) := by
  rw [blockOf, renderLine_map]

/-- C7: the writer emits the title line, then exactly one section per bucket
in the fixed `State` declaration order, each heading line present even for
an empty bucket, whatever the buckets hold. -/
theorem create_file_fixed_order (stub : String) (f : State → List String) :
    create_file_lines stub (canonicalTodos f) =
        ("# TODO FOR " ++ stub) :: "" ::
          stateOrder.flatMap (fun s =>
            ("# " ++ s.value) ::
              ((if s = State.COMPLETED then (f s).map completedOutput else f s)
                ++ [""])) ∧
      ∀ s : State, ("# " ++ s.value) ∈ create_file_lines stub (canonicalTodos f) := by
  have hmain : create_file_lines stub (canonicalTodos f) =
      ("# TODO FOR " ++ stub) :: "" ::
        stateOrder.flatMap (fun s =>
          ("# " ++ s.value) ::
            ((if s = State.COMPLETED then (f s).map completedOutput else f s)
              ++ [""])) := by
    rw [create_file_eq_blocks]
    have hfun : blockOf f = fun s =>
        ("# " ++ s.value) ::
          ((if s = State.COMPLETED then (f s).map completedOutput else f s) ++ [""]) :=
      funext (blockOf_eq f)
    rw [hfun]
  refine ⟨hmain, fun s => ?_⟩
  rw [hmain]
  cases s <;> simp [stateOrder]

/-- C2 (amended): under `COMPLETED` the writer emits `"[x] "` followed by
the task with its longest leading run of characters from the marker
alphabet (`[`, `x`, `]`, `X`, `-`, `*`, space, `>`) removed — Python
`str.lstrip` character-set semantics.  When the task text does not itself
begin with marker-alphabet characters this removes exactly the leading
marker, and the claim's two examples hold verbatim. -/
theorem completed_bucket_write_normalization :
    (∀ (stub : String) (ts : List String),
        create_file_lines stub [("COMPLETED", ts)] =
          ("# TODO FOR " ++ stub) :: "" :: "# COMPLETED" ::
            (ts.map completedOutput ++ [""])) ∧
      (∀ t : String, completedOutput t =
          "[x] " ++ String.mk (t.data.dropWhile (fun c => markerChars.data.contains c))) ∧
      completedOutput "[x] buy milk" = "[x] buy milk" ∧
      completedOutput "- buy milk" = "[x] buy milk" := by
  refine ⟨fun stub ts => ?_, fun t => rfl, by decide, by decide⟩
  show ("# TODO FOR " ++ stub) :: "" ::
      (("# COMPLETED" :: (ts.map (renderLine "COMPLETED") ++ [""])) ++ []) =
    ("# TODO FOR " ++ stub) :: "" :: "# COMPLETED" :: (ts.map completedOutput ++ [""])
  rw [List.append_nil]
  have hmap : ts.map (renderLine "COMPLETED") = ts.map completedOutput :=
    List.map_congr_left (fun t _ => rfl)
  rw [hmap]

/-- C2 counterexample: `lstrip` removes a run of characters, not one marker:
a task whose own text begins with marker-alphabet characters loses them, so
`"x-ray the package"` is emitted as `"[x] ray the package"`, not the
text-preserving `"[x] x-ray the package"` the claim requires. -/
theorem completed_write_eats_leading_text :
    create_file_lines "2024-01-02" [("COMPLETED", ["x-ray the package"])] =
        ["# TODO FOR 2024-01-02", "", "# COMPLETED", "[x] ray the package", ""] ∧
      ("[x] ray the package" : String) ≠ "[x] x-ray the package" :=
  ⟨by decide, by decide⟩

/-- C8 (amended): writing a roll-forward result and re-parsing each bucket's
section yields exactly that bucket's ordered task list — Completed tasks
compared up to the writer's marker normalization — for every result whose
tasks are nonempty stripped lines distinct from the section headings, with
Completed tasks not reduced to nothing by the marker strip.  (The
counterexample shows the conditions are needed: a blank or heading-shaped
task breaks the round-trip.) -/
theorem write_then_parse_roundtrip (f : State → List String) (stub : String)
    (hgood : ∀ s : State, ∀ t ∈ f s, goodTask t)
    (hcomp : ∀ t ∈ f State.COMPLETED, (pyLstrip t markerChars).data ≠ [])
    (s : State) :
    readSectionTasks (create_file_lines stub (canonicalTodos f)) ⟨s, ""⟩ =
      some (if s = State.COMPLETED then (f s).map completedOutput else f s) := by
  rw [readSectionTasks_eq_sectionScan, create_file_eq_blocks]
  show some (sectionScan ("# " ++ s.value)
      (["# TODO FOR " ++ stub, ""] ++ stateOrder.flatMap (blockOf f))) = _
  have hskip : ∀ l ∈ ["# TODO FOR " ++ stub, ""], pyStrip l ≠ "# " ++ s.value := by
    intro l hl
    rcases List.mem_cons.mp hl with rfl | hl2
    · exact title_ne_heading stub s
    · rcases List.mem_cons.mp hl2 with rfl | hl3
      · rw [show pyStrip "" = "" from rfl]
        exact heading_ne_empty s
      · simp at hl3
  rw [sectionScan_append_of_no_match _ _ _ hskip,
    sectionScan_blocks f s hgood stateOrder (by cases s <;> simp [stateOrder])]
  refine congrArg some ?_
  by_cases hs : s = State.COMPLETED
  · subst hs
    rw [if_pos rfl, List.map_map]
    apply List.map_congr_left
    intro t ht
    show pyStrip (renderLine State.COMPLETED.value t) = completedOutput t
    rw [renderLine_of_completed]
    exact pyStrip_completedOutput t (hgood State.COMPLETED t ht).2.1 (hcomp t ht)
  · rw [if_neg hs, List.map_map]
    have h : ∀ t ∈ f s, (pyStrip ∘ renderLine s.value) t = t := by
      intro t ht
      show pyStrip (renderLine s.value t) = t
      rw [renderLine_of_ne s hs]
      exact (hgood s t ht).2.1
    rw [List.map_congr_left h]
    simp

/-- A sample roll-forward result used to instantiate the round-trip. -/
def fSample : State → List String := fun s =>
  match s with
  | State.TODAY => ["alpha", "beta"]
  | State.COMPLETED => ["[x] done"]
  | _ => []

theorem write_then_parse_roundtrip_witness :
    readSectionTasks (create_file_lines "2024-05-06" (canonicalTodos fSample))
        ⟨State.COMPLETED, ""⟩ = some ["[x] done"] := by
  have h := write_then_parse_roundtrip fSample "2024-05-06"
    (by decide) (by decide) State.COMPLETED
  rw [h]
  decide

/-- A roll-forward result holding a blank task under TODAY. -/
def fBlank : State → List String := fun s =>
  match s with
  | State.TODAY => [""]
  | _ => []

/-- C8 counterexample: a result whose TODAY bucket holds the empty task is
written as a blank line, which terminates the section on re-parse, so the
parsed list differs from the written one. -/
theorem roundtrip_fails_on_blank_task :
    readSectionTasks (create_file_lines "2024-01-02" (canonicalTodos fBlank))
        ⟨State.TODAY, ""⟩ = some [] ∧
      (some [] : Option (List String)) ≠ some (fBlank State.TODAY) :=
  ⟨by decide, by decide⟩


end Todo
